import Mathlib

/-!
# Verification of the georef-ar-api normalizer module

Shallow embedding of `service/normalizer.py` (query normalization and
multi-source result composition pipeline) and proofs of the specified
properties. Python dictionaries are modelled as association lists with
unique keys, Python values as a small JSON-like inductive type, and
Python exceptions as `Except` errors.
-/

/-- A Python runtime value as used by the normalizer module: `None`,
integers, strings, lists and dictionaries. -/
inductive Val where
  | null : Val
  | int (n : Int) : Val
  | str (s : String) : Val
  | list (xs : List Val) : Val
  | obj (d : List (String × Val)) : Val
deriving Repr

/-- A Python dictionary: an association list of string keys to values.
Python dict keys are unique; the operations below agree with Python's
on lists with unique keys. -/
abbrev Dict := List (String × Val)

/-- Python exceptions raised by the modelled code. -/
inductive Err where
  | keyError : Err
  | typeError : Err
  | indexError : Err
  | valueError : Err
  | dataConnection : Err
deriving DecidableEq, Repr

/-- Dictionary lookup (`d.get(k)` / `k in d`): the value at the first
(unique) occurrence of the key. -/
def Dict.get? (d : Dict) (k : String) : Option Val :=
  match d with
  | [] => none
  | (k', v) :: rest => if k' = k then some v else Dict.get? rest k

/-- Python `d[k] = v`: replace the value at an existing key in place,
otherwise append the new entry (Python dicts keep insertion order). -/
def Dict.insert (d : Dict) (k : String) (v : Val) : Dict :=
  match d with
  | [] => [(k, v)]
  | (k', v') :: rest => if k' = k then (k, v) :: rest else (k', v') :: Dict.insert rest k v

/-- Remove a key from a dictionary (Python `del` / the removal part of
`pop`). Since Python dict keys are unique, removing every occurrence
agrees with removing the one occurrence. -/
def Dict.erase (d : Dict) (k : String) : Dict :=
  d.filter (fun p => p.1 ≠ k)

/-- Python `d.pop(k)`: return the value and the dictionary without the
key; raise `KeyError` when the key is absent. -/
def Dict.pop (d : Dict) (k : String) : Except Err (Val × Dict) :=
  match Dict.get? d k with
  | some v => .ok (v, Dict.erase d k)
  | none => .error .keyError

/-- Python `d[k]` on a dictionary: `KeyError` when absent. -/
def Dict.index (d : Dict) (k : String) : Except Err Val :=
  match Dict.get? d k with
  | some v => .ok v
  | none => .error .keyError

/-- Python subscript `v[k]` on an arbitrary value: key lookup when the
value is a dictionary, `TypeError` otherwise (e.g. `None[k]`). -/
def Val.index (v : Val) (k : String) : Except Err Val :=
  match v with
  | .obj d => Dict.index d k
  | _ => .error .typeError

/-!
Modelled from the spec: the `service.names` module (key-name constants)
is not part of the analyzed source. The proofs rely only on these keys
being pairwise distinct strings, never on their exact spelling, matching
the spec's use of them as abstract field names.
-/
namespace N

def ID : String := "id"

def NAME : String := "nombre"

def STATE : String := "provincia"

def DEPT : String := "departamento"

def MUN : String := "municipio"

def EXACT : String := "exacto"

def ORDER : String := "orden"

def FIELDS : String := "campos"

def OFFSET : String := "offset"

def FLATTEN : String := "aplanar"

def FORMAT : String := "formato"

def CSV_FIELDS : String := "csv_campos"

def ROAD_TYPE : String := "tipo"

def ADDRESS : String := "direccion"

def FULL_NAME : String := "nomenclatura"

def DOOR_NUM : String := "altura"

def GEOM : String := "geometria"

def START : String := "inicio"

def END : String := "fin"

def RIGHT : String := "derecha"

def LEFT : String := "izquierda"

def START_R : String := "alturas.inicio.derecha"

def END_L : String := "alturas.fin.izquierda"

def LOCATION : String := "ubicacion"

def LOCATION_LAT : String := "ubicacion.lat"

def LOCATION_LON : String := "ubicacion.lon"

def LAT : String := "lat"

def LON : String := "lon"

def SOURCE : String := "fuente"

def SOURCE_IGN : String := "IGN"

def SOURCE_BAHRA : String := "BAHRA"

def SOURCE_INDEC : String := "INDEC"

end N

/-- Python `is None` test on a modelled value. -/
def Val.isNull : Val → Bool
  | .null => true
  | _ => false

/-- Python `a <= b`: defined for two ints or two strings, `TypeError`
otherwise (in particular when one side is `None`). -/
def pyLe (a b : Val) : Except Err Bool :=
  match a, b with
  | .int x, .int y => .ok (decide (x ≤ y))
  | .str s, .str t => .ok (decide (s ≤ t))
  | _, _ => .error .typeError

/-- Python chained comparison `a <= n <= b`: evaluate `a <= n` first;
`n <= b` is evaluated only when the first comparison is true. -/
def pyLeChain (a n b : Val) : Except Err Bool := do
  if (← pyLe a n) then pyLe n b else pure false

/-- The loop of `street_extents`: return the first combination
`(start, end)` with `start <= number <= end`, or `(None, None)` when
none matches. -/
def extents_loop (number : Val) : List (Val × Val) → Except Err (Val × Val)
  | [] => .ok (.null, .null)
  | (s, e) :: rest => do
    if (← pyLeChain s number e) then .ok (s, e) else extents_loop number rest

/-- `street_extents(door_nums, number)` from `service/normalizer.py`:
extract the four boundary values and try the four fixed-priority
`(start, end)` combinations. -/
def street_extents (door_nums number : Val) : Except Err (Val × Val) := do
  let start_r ← (← Val.index door_nums N.START).index N.RIGHT
  let start_l ← (← Val.index door_nums N.START).index N.LEFT
  let end_r ← (← Val.index door_nums N.END).index N.RIGHT
  let end_l ← (← Val.index door_nums N.END).index N.LEFT
  extents_loop number [(start_r, end_l), (start_l, end_r), (start_r, end_r), (start_l, end_l)]

/-- A door-number record with the four integer boundary values, shaped
as the street index stores it. -/
def mkDoorNums (sr sl er el : Val) : Val :=
  .obj [(N.START, .obj [(N.RIGHT, sr), (N.LEFT, sl)]),
        (N.END, .obj [(N.RIGHT, er), (N.LEFT, el)])]

/-- The extents function as the spec words it: the first of the four
fixed-priority combinations containing the number (inclusive), else
nothing. -/
def street_extents_spec (sr sl er el n : Int) : Option (Int × Int) :=
  List.find? (fun p => decide (p.1 ≤ n ∧ n ≤ p.2))
    [(sr, el), (sl, er), (sr, er), (sl, el)]

example :
    street_extents (mkDoorNums (.int 101) (.int 100) (.int 201) (.int 200)) (.int 150) =
      .ok (.int 101, .int 200) := by
  rfl

example :
    street_extents (mkDoorNums (.int 101) (.int 100) (.int 201) (.int 200)) (.int 9999) =
      .ok (.null, .null) := by
  rfl

/-- C1: for every door-number record exposing the four integer boundary
values and every queried number, `street_extents` evaluates the four
candidate combinations in the fixed priority order (start-right,
end-left), (start-left, end-right), (start-right, end-right),
(start-left, end-left) and returns the first one with
`start <= N <= end` inclusive, or `(None, None)` when none matches. -/
theorem C1_street_extents_first_match (sr sl er el n : Int) :
    street_extents (mkDoorNums (.int sr) (.int sl) (.int er) (.int el)) (.int n) =
      .ok (match street_extents_spec sr sl er el n with
           | some p => (Val.int p.1, Val.int p.2)
           | none => (Val.null, Val.null)) := by
  by_cases h1 : sr ≤ n <;> by_cases h2 : n ≤ el <;> by_cases h3 : sl ≤ n <;> by_cases h4 : n ≤ er <;>
    simp [street_extents, mkDoorNums, Val.index, Dict.index, Dict.get?, extents_loop, pyLeChain,
          pyLe, street_extents_spec, List.find?, Bind.bind, Except.bind, pure, Except.pure,
          h1, h2, h3, h4, N.START, N.END, N.RIGHT, N.LEFT]

/-- C10: `street_extents` requires every evaluated boundary value to
support numeric comparison. With a `None` start-right boundary in the
first evaluated combination, the comparison raises a `TypeError` instead
of skipping to the next combination or returning `(None, None)` — even
though the second combination `(100, 201)` would have contained the
queried number 150, as witnessed by the same record with the null
replaced. -/
theorem C10_street_extents_null_boundary_raises :
    street_extents (mkDoorNums Val.null (Val.int 100) (Val.int 201) (Val.int 200)) (Val.int 150) =
      Except.error Err.typeError ∧
    street_extents (mkDoorNums (Val.int 101) (Val.int 100) (Val.int 201) (Val.int 200))
      (Val.int 150) = Except.ok (Val.int 101, Val.int 200) ∧
    ((100 : Int) ≤ 150 ∧ (150 : Int) ≤ 201) := by
  refine ⟨rfl, rfl, by norm_num⟩

/-- `translations.get(key, key)`: the translated key when a translation
exists, the key itself otherwise. -/
def rename_key (translations : List (String × String)) (k : String) : String :=
  (List.lookup k translations).getD k

/-- `translate_keys(d, translations, ignore)` from
`service/normalizer.py`: a dict comprehension over the items of `d`,
dropping ignored keys and renaming the rest (the Python
`if not ignore: ignore = []` default is the identity on the list
model). Built left to right, so a later item whose renamed key
collides with an earlier one overwrites it, as in a Python dict. -/
def translate_keys (d : Dict) (translations : List (String × String))
    (ignore : List String) : Dict :=
  List.foldl
    (fun acc p =>
      if p.1 ∈ ignore then acc
      else Dict.insert acc (rename_key translations p.1) p.2)
    [] d

theorem Dict.get?_insert_self (d : Dict) (k : String) (v : Val) :
    Dict.get? (Dict.insert d k v) k = some v := by
  induction d with
  | nil => simp [Dict.insert, Dict.get?]
  | cons p rest ih => by_cases h : p.1 = k <;> simp [Dict.insert, Dict.get?, h, ih]

theorem Dict.get?_insert_ne (d : Dict) (k k2 : String) (v : Val) (h : k ≠ k2) :
    Dict.get? (Dict.insert d k v) k2 = Dict.get? d k2 := by
  induction d with
  | nil => simp [Dict.insert, Dict.get?, h]
  | cons p rest ih => by_cases hp : p.1 = k <;> simp [Dict.insert, Dict.get?, hp, h, ih]

theorem Dict.get?_erase_self (d : Dict) (k : String) :
    Dict.get? (Dict.erase d k) k = none := by
  induction d with
  | nil => simp [Dict.erase, Dict.get?]
  | cons p rest ih =>
    by_cases hp : p.1 = k <;> simp_all [Dict.erase, Dict.get?, List.filter_cons]

theorem Dict.get?_erase_ne (d : Dict) (k k2 : String) (h : k ≠ k2) :
    Dict.get? (Dict.erase d k) k2 = Dict.get? d k2 := by
  induction d with
  | nil => simp [Dict.erase, Dict.get?]
  | cons p rest ih =>
    by_cases hp : p.1 = k <;> by_cases hp2 : p.1 = k2 <;>
      simp_all [Dict.erase, Dict.get?, List.filter_cons]

theorem Dict.get?_eq_none_of_not_mem_keys (d : Dict) (k : String)
    (h : k ∉ d.map Prod.fst) : Dict.get? d k = none := by
  induction d with
  | nil => simp [Dict.get?]
  | cons p rest ih =>
    simp only [List.map_cons, List.mem_cons] at h
    push_neg at h
    have hne : p.1 ≠ k := fun hc => h.1 hc.symm
    simp [Dict.get?, hne, ih h.2]

theorem Dict.insert_eq_append (d : Dict) (k : String) (v : Val)
    (h : k ∉ d.map Prod.fst) : Dict.insert d k v = d ++ [(k, v)] := by
  induction d with
  | nil => simp [Dict.insert]
  | cons p rest ih =>
    simp only [List.map_cons, List.mem_cons] at h
    push_neg at h
    have hne : p.1 ≠ k := fun hc => h.1 hc.symm
    simp [Dict.insert, hne, ih h.2]

/-- The entries the spec says `translate_keys` returns: the items of
`d` whose keys are not ignored, each key renamed, values untouched. -/
def translated_entries (d : Dict) (translations : List (String × String))
    (ignore : List String) : Dict :=
  (d.filter (fun p => p.1 ∉ ignore)).map (fun p => (rename_key translations p.1, p.2))

theorem translate_keys_go (translations : List (String × String)) (ignore : List String)
    (d : Dict) :
    ∀ (acc : Dict),
      (acc.map Prod.fst ++ (translated_entries d translations ignore).map Prod.fst).Nodup →
      List.foldl
        (fun acc p =>
          if p.1 ∈ ignore then acc
          else Dict.insert acc (rename_key translations p.1) p.2)
        acc d =
      acc ++ translated_entries d translations ignore := by
  induction d with
  | nil => intro acc _; simp [translated_entries]
  | cons p rest ih =>
    intro acc h
    by_cases hp : p.1 ∈ ignore
    · have he : translated_entries (p :: rest) translations ignore =
          translated_entries rest translations ignore := by
        simp [translated_entries, hp]
      rw [List.foldl_cons, if_pos hp, he]
      exact ih acc (by rwa [he] at h)
    · have he : translated_entries (p :: rest) translations ignore =
          (rename_key translations p.1, p.2) :: translated_entries rest translations ignore := by
        simp [translated_entries, hp]
      rw [he] at h
      simp only [List.map_cons] at h
      have hnotin : rename_key translations p.1 ∉ acc.map Prod.fst := by
        rcases List.nodup_append.mp h with ⟨_, _, hdisj⟩
        intro hc
        exact hdisj hc (List.mem_cons_self _ _)
      rw [List.foldl_cons, if_neg hp,
        Dict.insert_eq_append acc (rename_key translations p.1) p.2 hnotin,
        ih (acc ++ [(rename_key translations p.1, p.2)])
          (by simpa [List.append_assoc] using h),
        he]
      simp

/-- C5 (amended): when no two retained keys of `d` are renamed to the
same key, `translate_keys` returns exactly the entries of `d` whose
keys are not in `ignore`, each key renamed via `translations` when a
translation exists and kept otherwise, with every value carried over
unchanged; the function is pure and deterministic. -/
theorem C5_translate_keys_amended (d : Dict) (translations : List (String × String))
    (ignore : List String)
    (h : ((translated_entries d translations ignore).map Prod.fst).Nodup) :
    translate_keys d translations ignore = translated_entries d translations ignore := by
  simpa [translate_keys] using
    translate_keys_go translations ignore d [] (by simpa using h)

theorem C5_translate_keys_amended_witness :
    ((translated_entries [(N.ID, Val.str "x"), ("junk", Val.int 3)] [(N.ID, "entity_id")]
        ["junk"]).map Prod.fst).Nodup ∧
    translate_keys [(N.ID, Val.str "x"), ("junk", Val.int 3)] [(N.ID, "entity_id")] ["junk"] =
      translated_entries [(N.ID, Val.str "x"), ("junk", Val.int 3)] [(N.ID, "entity_id")]
        ["junk"] := by
  refine ⟨?_, C5_translate_keys_amended _ _ _ ?_⟩ <;>
    simp [translated_entries, rename_key, N.ID, List.lookup]

/-- C5 counterexample: with `d = {a: 1, b: 2}` and the translation
`{a -> b}`, no key is ignored and both retained keys rename to `b`, so
the comprehension collapses them and the value `1` of key `a` is not
carried over — the result is `{b: 2}` alone, refuting the claim that
every retained value is carried over unchanged. -/
theorem C5_translate_keys_counterexample :
    translate_keys [("a", Val.int 1), ("b", Val.int 2)] [("a", "b")] [] = [("b", Val.int 2)] ∧
    rename_key [("a", "b")] "a" = "b" ∧
    ("b", Val.int 1) ∉ translate_keys [("a", Val.int 1), ("b", Val.int 2)] [("a", "b")] [] := by
  refine ⟨rfl, rfl, ?_⟩
  intro hmem
  simp [translate_keys, Dict.insert, rename_key, List.lookup] at hmem

/-- `QueryResult` from `service/normalizer.py`: the uniform container
for a singular or list-shaped outcome. The Python class stores the
fields privately and exposes only read properties; the embedding is a
plain immutable structure. -/
structure QueryResult where
  entities : List Dict
  iterable : Bool
  total : Nat
  offset : Nat
deriving Repr

/-- `QueryResult.from_single_entity`: a singular result. -/
def QueryResult.from_single_entity (entity : Dict) : QueryResult :=
  { entities := [entity], iterable := false, total := 1, offset := 0 }

/-- `QueryResult.from_entity_list`: a list result. -/
def QueryResult.from_entity_list (entities : List Dict) (total offset : Nat) : QueryResult :=
  { entities := entities, iterable := true, total := total, offset := offset }

/-- The five index names the normalizer compares against. The Python
`get_index_source` raises `ValueError` for any other name; on this
enumeration of exactly the compared names the function is total. -/
inductive Index where
  | states
  | departments
  | municipalities
  | localities
  | streets
deriving DecidableEq, Repr

/-- `get_index_source(index)` from `service/normalizer.py`. -/
def get_index_source : Index → String
  | .states => N.SOURCE_IGN
  | .departments => N.SOURCE_IGN
  | .municipalities => N.SOURCE_IGN
  | .localities => N.SOURCE_BAHRA
  | .streets => N.SOURCE_INDEC

/-- A search-backend result object: `hits`, `total`, `offset`, as the
data layer hands them to the normalizer. -/
structure SearchResult where
  hits : List Dict
  total : Nat
  offset : Nat
deriving Repr

/-- Modelled from the spec: the `service.formatter` module is not part
of the analyzed source. Each constructor records exactly what the
normalizer hands to the corresponding formatter call: an OK response
with the query results and format rules, a flat field-error list on the
single path, a list of per-item error lists on the bulk path, or the
generic internal-error response carrying no result data. -/
inductive Response where
  | okSingle (result : QueryResult) (fmt : Dict)
  | okBulk (results : List QueryResult) (fmts : List Dict)
  | paramErrorSingle (errors : List String)
  | paramErrorBulk (errors : List (List String))
  | internalError
deriving Repr

/-- The format-rule dictionary `{key: parsed[key] for key in keys if
key in parsed}` built by the processing functions. -/
def fmt_from (parsed : Dict) (keys : List String) : Dict :=
  List.foldl
    (fun acc k =>
      match Dict.get? parsed k with
      | some v => Dict.insert acc k v
      | none => acc)
    [] keys

/-- Modelled from the spec: `formatter.ENDPOINT_CSV_FIELDS` lives
outside the analyzed source; its value never influences the claims. -/
def ENDPOINT_CSV_FIELDS : Index → Val := fun _ => Val.list []

/-- The source-tagging loop `for match in result.hits:
match[N.SOURCE] = source`. -/
def tag_hits (source : String) (r : SearchResult) : SearchResult :=
  { r with hits := r.hits.map (fun h => Dict.insert h N.SOURCE (Val.str source)) }

/-- `process_entity_single` from `service/normalizer.py`. Parsing and
the search backend are the external collaborators, passed as the
already-computed parse outcome and the search call; the second
component records every batch search call issued. -/
def process_entity_single (name : Index) (key_translations : List (String × String))
    (parse : Except (List String) Dict)
    (search : Index → List Dict → Except Err (List SearchResult)) :
    Except Err Response × List (Index × List Dict) :=
  match parse with
  | .error errors => (.ok (.paramErrorSingle errors), [])
  | .ok qs_params =>
    let query := translate_keys qs_params key_translations [N.FLATTEN, N.FORMAT]
    let fmt := Dict.insert (fmt_from qs_params [N.FLATTEN, N.FIELDS, N.FORMAT])
      N.CSV_FIELDS (ENDPOINT_CSV_FIELDS name)
    match search name [query] with
    | .error e => (.error e, [(name, [query])])
    | .ok [] => (.error .indexError, [(name, [query])])
    | .ok (result :: _) =>
      let tagged := tag_hits (get_index_source name) result
      (.ok (.okSingle (QueryResult.from_entity_list tagged.hits tagged.total tagged.offset) fmt),
        [(name, [query])])

/-- `process_entity_bulk` from `service/normalizer.py`: build one query
and one format dictionary per parsed parameter set, issue one batch
search call, tag every hit of every result with the index source and
wrap each result into its own `QueryResult`. -/
def process_entity_bulk (name : Index) (key_translations : List (String × String))
    (parse : Except (List (List String)) (List Dict))
    (search : Index → List Dict → Except Err (List SearchResult)) :
    Except Err Response × List (Index × List Dict) :=
  match parse with
  | .error errors => (.ok (.paramErrorBulk errors), [])
  | .ok body_params =>
    let queries := body_params.map
      (fun p => translate_keys p key_translations [N.FLATTEN, N.FORMAT])
    let formats := body_params.map (fun p => fmt_from p [N.FLATTEN, N.FIELDS])
    match search name queries with
    | .error e => (.error e, [(name, queries)])
    | .ok results =>
      let tagged := results.map (tag_hits (get_index_source name))
      (.ok (.okBulk
          (tagged.map (fun r => QueryResult.from_entity_list r.hits r.total r.offset)) formats),
        [(name, queries)])

/-- `process_entity` from `service/normalizer.py`: dispatch on the HTTP
method, catch `DataConnectionException` only, log the entity name and
answer with the generic internal-error response; any other exception
propagates. The third component lists the entity names logged. -/
def process_entity (isGet : Bool) (name : Index) (key_translations : List (String × String))
    (parseSingle : Except (List String) Dict)
    (parseBulk : Except (List (List String)) (List Dict))
    (search : Index → List Dict → Except Err (List SearchResult)) :
    Except Err Response × List (Index × List Dict) × List Index :=
  match (if isGet then process_entity_single name key_translations parseSingle search
         else process_entity_bulk name key_translations parseBulk search) with
  | (.ok resp, calls) => (.ok resp, calls, [])
  | (.error .dataConnection, calls) => (.ok .internalError, calls, [name])
  | (.error e, calls) => (.error e, calls, [])

/-- C4: for every bulk request whose body parses into N parameter sets,
the bulk path builds N queries, issues exactly one batch search call,
and — when the backend returns N results for the N queries — answers
with N QueryResults where the i-th is built from the i-th backend
result and every hit of every result carries the source identifier
derived from the entity type. -/
theorem C4_process_entity_bulk_order_cardinality (name : Index)
    (kt : List (String × String)) (body_params : List Dict)
    (search : Index → List Dict → Except Err (List SearchResult))
    (results : List SearchResult)
    (hsearch : search name (body_params.map
        (fun p => translate_keys p kt [N.FLATTEN, N.FORMAT])) = .ok results)
    (hlen : results.length = body_params.length) :
    ∃ qrs fmts,
      process_entity_bulk name kt (.ok body_params) search =
        (.ok (.okBulk qrs fmts),
         [(name, body_params.map (fun p => translate_keys p kt [N.FLATTEN, N.FORMAT]))]) ∧
      qrs.length = body_params.length ∧
      (∀ i (hi : i < results.length),
        qrs[i]? = some (QueryResult.from_entity_list
          (tag_hits (get_index_source name) results[i]).hits
          results[i].total results[i].offset)) ∧
      (∀ qr ∈ qrs, ∀ h ∈ qr.entities,
        Dict.get? h N.SOURCE = some (.str (get_index_source name))) := by
  refine ⟨(results.map (tag_hits (get_index_source name))).map
      (fun r => QueryResult.from_entity_list r.hits r.total r.offset),
    body_params.map (fun p => fmt_from p [N.FLATTEN, N.FIELDS]), ?_, ?_, ?_, ?_⟩
  · simp only [process_entity_bulk, hsearch]
  · simp [hlen]
  · intro i hi
    simp [List.getElem?_map, List.getElem?_eq_getElem hi, tag_hits]
  · intro qr hqr h hh
    simp only [List.mem_map] at hqr
    obtain ⟨r, hr, rfl⟩ := hqr
    obtain ⟨r0, hr0, rfl⟩ := hr
    simp only [QueryResult.from_entity_list, tag_hits, List.mem_map] at hh
    obtain ⟨h0, hh0, rfl⟩ := hh
    exact Dict.get?_insert_self h0 N.SOURCE (Val.str (get_index_source name))

theorem C4_process_entity_bulk_order_cardinality_witness :
    ((fun _ qs => Except.ok (qs.map (fun _ => SearchResult.mk [[("y", Val.int 2)]] 1 0)))
        Index.states ([[("x", Val.int 1)]].map
          (fun p => translate_keys p [] [N.FLATTEN, N.FORMAT])) : Except Err _) =
      .ok [SearchResult.mk [[("y", Val.int 2)]] 1 0] ∧
    (∃ qrs fmts,
      process_entity_bulk Index.states [] (.ok [[("x", Val.int 1)]])
        (fun _ qs => .ok (qs.map (fun _ => SearchResult.mk [[("y", Val.int 2)]] 1 0))) =
        (.ok (.okBulk qrs fmts),
         [(Index.states, [[("x", Val.int 1)]].map
            (fun p => translate_keys p [] [N.FLATTEN, N.FORMAT]))]) ∧
      qrs.length = 1 ∧
      (∀ i (hi : i < [SearchResult.mk [[("y", Val.int 2)]] 1 0].length),
        qrs[i]? = some (QueryResult.from_entity_list
          (tag_hits (get_index_source Index.states)
            [SearchResult.mk [[("y", Val.int 2)]] 1 0][i]).hits
          [SearchResult.mk [[("y", Val.int 2)]] 1 0][i].total
          [SearchResult.mk [[("y", Val.int 2)]] 1 0][i].offset)) ∧
      (∀ qr ∈ qrs, ∀ h ∈ qr.entities,
        Dict.get? h N.SOURCE = some (.str (get_index_source Index.states)))) :=
  ⟨rfl, C4_process_entity_bulk_order_cardinality Index.states [] [[("x", Val.int 1)]]
    (fun _ qs => .ok (qs.map (fun _ => SearchResult.mk [[("y", Val.int 2)]] 1 0)))
    [SearchResult.mk [[("y", Val.int 2)]] 1 0] rfl rfl⟩

/-- C6: a parameter-parsing failure short-circuits before any backend
call and yields the structured validation-error response — a flat
field-error list on the single path, a list of per-item error lists on
the bulk path; a backend connectivity failure during either path
aborts the whole operation (the internal-error response carries no
result data), is logged with the entity name, and the single batch
call is never retried. -/
theorem C6_process_entity_error_handling (name : Index) (kt : List (String × String))
    (parseS : Except (List String) Dict) (parseB : Except (List (List String)) (List Dict))
    (search : Index → List Dict → Except Err (List SearchResult)) :
    (∀ errs, process_entity true name kt (.error errs) parseB search =
      (.ok (.paramErrorSingle errs), [], [])) ∧
    (∀ errs, process_entity false name kt parseS (.error errs) search =
      (.ok (.paramErrorBulk errs), [], [])) ∧
    (∀ qs, parseS = .ok qs →
      search name [translate_keys qs kt [N.FLATTEN, N.FORMAT]] = .error .dataConnection →
      process_entity true name kt parseS parseB search =
        (.ok .internalError, [(name, [translate_keys qs kt [N.FLATTEN, N.FORMAT]])], [name])) ∧
    (∀ body, parseB = .ok body →
      search name (body.map (fun p => translate_keys p kt [N.FLATTEN, N.FORMAT])) =
        .error .dataConnection →
      process_entity false name kt parseS parseB search =
        (.ok .internalError,
         [(name, body.map (fun p => translate_keys p kt [N.FLATTEN, N.FORMAT]))], [name])) := by
  refine ⟨fun errs => ?_, fun errs => ?_, fun qs hqs hs => ?_, fun body hb hs => ?_⟩
  · simp [process_entity, process_entity_single]
  · simp [process_entity, process_entity_bulk]
  · subst hqs
    simp [process_entity, process_entity_single, hs]
  · subst hb
    simp [process_entity, process_entity_bulk, hs]

theorem C6_process_entity_error_handling_witness :
    process_entity true Index.states [] (.error ["bad"]) (.ok [])
      (fun _ _ => .error .dataConnection) = (.ok (.paramErrorSingle ["bad"]), [], []) ∧
    ((Except.ok [("x", Val.int 1)] : Except (List String) Dict) = .ok [("x", Val.int 1)] ∧
      process_entity true Index.states [] (.ok [("x", Val.int 1)]) (.ok [])
        (fun _ _ => .error .dataConnection) =
        (.ok .internalError,
         [(Index.states, [translate_keys [("x", Val.int 1)] [] [N.FLATTEN, N.FORMAT]])],
         [Index.states])) :=
  ⟨(C6_process_entity_error_handling Index.states [] (.error ["bad"]) (.ok [])
      (fun _ _ => .error .dataConnection)).1 ["bad"],
   rfl,
   (C6_process_entity_error_handling Index.states [] (.ok [("x", Val.int 1)]) (.ok [])
      (fun _ _ => .error .dataConnection)).2.2.1 [("x", Val.int 1)] rfl rfl⟩

/-- The empty administrative entity `{id: None, nombre: None}` used by
`build_place_result`. -/
def empty_entity : Dict := [(N.ID, Val.null), (N.NAME, Val.null)]

/-- The place dictionary literal at the end of `build_place_result`:
the branch outcome plus `query['lat']` and `query['lon']` (a `KeyError`
when the query lacks them). -/
def place_from (query : Dict) (state : Val) (dept muni : Dict) (source : Val) :
    Except Err Dict := do
  let lat ← Dict.index query "lat"
  let lon ← Dict.index query "lon"
  pure [(N.STATE, state), (N.DEPT, Val.obj dept), (N.MUN, Val.obj muni),
    (N.LAT, lat), (N.LON, lon), (N.SOURCE, source)]

/-- `build_place_result(query, dept, muni)` from `service/normalizer.py`.
`dept`/`muni` are the department and municipality matches, `None` when
the point query found nothing; `if not dept` is Python truthiness, so
`None` and the empty dictionary both select the all-null branch. In the
department branch `dept.pop(N.STATE)` extracts the embedded state
sub-record and `muni or empty_entity.copy()` substitutes the stub for a
falsy municipality. -/
def build_place_result (query : Dict) (dept muni : Option Dict) : Except Err Dict :=
  match dept with
  | none => place_from query (Val.obj empty_entity) empty_entity empty_entity Val.null
  | some d =>
    if d.isEmpty then place_from query (Val.obj empty_entity) empty_entity empty_entity Val.null
    else do
      let (state, dRest) ← Dict.pop d N.STATE
      let muni2 := match muni with
        | none => empty_entity
        | some m => if m.isEmpty then empty_entity else m
      place_from query state dRest muni2 (Val.str (get_index_source Index.departments))

/-- C3: place composition. With no department match the place has
state, department and municipality all equal to the `{id: None,
name: None}` stub and a null source; with a department match the
place's state is the state sub-record embedded in the department match
(which is removed from the department entry), the municipality is the
match when present and the stub otherwise, and the source is the
department layer's source identifier. -/
theorem C3_build_place_result_composition (query : Dict) (lat lon : Val)
    (hlat : Dict.get? query "lat" = some lat) (hlon : Dict.get? query "lon" = some lon) :
    (∀ muni, build_place_result query none muni =
      .ok [(N.STATE, Val.obj empty_entity), (N.DEPT, Val.obj empty_entity),
        (N.MUN, Val.obj empty_entity), (N.LAT, lat), (N.LON, lon), (N.SOURCE, Val.null)]) ∧
    (∀ d st m, Dict.get? d N.STATE = some st → m ≠ [] →
      build_place_result query (some d) (some m) =
        .ok [(N.STATE, st), (N.DEPT, Val.obj (Dict.erase d N.STATE)), (N.MUN, Val.obj m),
          (N.LAT, lat), (N.LON, lon),
          (N.SOURCE, Val.str (get_index_source Index.departments))]) ∧
    (∀ d st, Dict.get? d N.STATE = some st →
      build_place_result query (some d) none =
        .ok [(N.STATE, st), (N.DEPT, Val.obj (Dict.erase d N.STATE)),
          (N.MUN, Val.obj empty_entity), (N.LAT, lat), (N.LON, lon),
          (N.SOURCE, Val.str (get_index_source Index.departments))]) := by
  have hne : ∀ (d : Dict) (st : Val), Dict.get? d N.STATE = some st → d.isEmpty = false := by
    intro d st hst
    cases d with
    | nil => simp [Dict.get?] at hst
    | cons p rest => simp [List.isEmpty]
  refine ⟨fun muni => ?_, fun d st m hst hm => ?_, fun d st hst => ?_⟩
  · simp [build_place_result, place_from, Dict.index, hlat, hlon, Bind.bind, Except.bind,
      pure, Except.pure]
  · simp [build_place_result, place_from, Dict.index, Dict.pop, hlat, hlon, hst, hne d st hst,
      hm, Bind.bind, Except.bind, pure, Except.pure, List.isEmpty_iff]
  · simp [build_place_result, place_from, Dict.index, Dict.pop, hlat, hlon, hst, hne d st hst,
      Bind.bind, Except.bind, pure, Except.pure]

theorem C3_build_place_result_composition_witness :
    Dict.get? [("lat", Val.int 1), ("lon", Val.int 2)] "lat" = some (Val.int 1) ∧
    Dict.get? [("lat", Val.int 1), ("lon", Val.int 2)] "lon" = some (Val.int 2) ∧
    (∀ muni, build_place_result [("lat", Val.int 1), ("lon", Val.int 2)] none muni =
      .ok [(N.STATE, Val.obj empty_entity), (N.DEPT, Val.obj empty_entity),
        (N.MUN, Val.obj empty_entity), (N.LAT, Val.int 1), (N.LON, Val.int 2),
        (N.SOURCE, Val.null)]) :=
  ⟨rfl, rfl,
   (C3_build_place_result_composition [("lat", Val.int 1), ("lon", Val.int 2)]
      (Val.int 1) (Val.int 2) rfl rfl).1⟩

/-- `build_place_query_format(parsed_params)` from
`service/normalizer.py`: an identity key translation ignoring the
format keys, plus the format-rule dictionary. -/
def build_place_query_format (parsed_params : Dict) : Dict × Dict :=
  (translate_keys parsed_params [] [N.FLATTEN, N.FORMAT],
   fmt_from parsed_params [N.FLATTEN, N.FIELDS, N.FORMAT])

/-- Modelled from the spec: the data layer's result object truthiness
(`dept_result.hits[0] if dept_result else None`) is outside the
analyzed source; per the spec a point query yields at most one match
and a falsy result means no match, so the first hit is taken exactly
when the hit list is non-empty. -/
def result_first_hit (r : SearchResult) : Option Dict :=
  r.hits.head?

/-- `process_place_queries(es, queries)` from `service/normalizer.py`:
build the department and municipality point-query batches, run each
through the search backend, and compose one place per input point. -/
def process_place_queries (search : Index → List Dict → Except Err (List SearchResult))
    (queries : List Dict) : Except Err (List Dict) := do
  let dept_queries ← queries.mapM (fun q => do
    let lat ← Dict.index q "lat"
    let lon ← Dict.index q "lon"
    pure ([("lat", lat), ("lon", lon),
      ("fields", Val.list [Val.str N.ID, Val.str N.NAME, Val.str N.STATE])] : Dict))
  let dept_results ← search Index.departments dept_queries
  let muni_queries ← queries.mapM (fun q => do
    let lat ← Dict.index q "lat"
    let lon ← Dict.index q "lon"
    pure ([("lat", lat), ("lon", lon),
      ("fields", Val.list [Val.str N.ID, Val.str N.NAME])] : Dict))
  let muni_results ← search Index.municipalities muni_queries
  (queries.zip (dept_results.zip muni_results)).mapM (fun x =>
    build_place_result x.1 (result_first_hit x.2.1) (result_first_hit x.2.2))

/-- `process_place_single(request)` from `service/normalizer.py`: parse,
build the query, run the point queries and wrap the first place into a
singular `QueryResult` (`[0]` on an empty list is an `IndexError`). -/
def process_place_single (parse : Except (List String) Dict)
    (search : Index → List Dict → Except Err (List SearchResult)) :
    Except Err Response :=
  match parse with
  | .error errors => .ok (.paramErrorSingle errors)
  | .ok qs_params =>
    let (query, fmt) := build_place_query_format qs_params
    match process_place_queries search [query] with
    | .error e => .error e
    | .ok [] => .error .indexError
    | .ok (place :: _) =>
      .ok (.okSingle (QueryResult.from_single_entity place) fmt)

/-- C7: QueryResult invariants. Singular results (as built by
`from_single_entity`, e.g. on the place path) have `iterable = false`,
`total = 1`, `offset = 0` and exactly one entity; list results built by
the bulk entity path satisfy `len(entities) <= total` whenever the
backend results do (`total` counts matches not necessarily returned).
The Python class exposes read-only properties and no normalizer code
writes the private fields after construction; the embedding is a pure
structure, so the fields are immutable by construction. -/
theorem C7_queryresult_invariants :
    (∀ e, (QueryResult.from_single_entity e).iterable = false ∧
      (QueryResult.from_single_entity e).total = 1 ∧
      (QueryResult.from_single_entity e).offset = 0 ∧
      (QueryResult.from_single_entity e).entities = [e]) ∧
    (∀ parse search qr fmt, process_place_single parse search = .ok (.okSingle qr fmt) →
      qr.iterable = false ∧ qr.total = 1 ∧ qr.offset = 0 ∧ qr.entities.length = 1) ∧
    (∀ (name : Index) kt (body : List Dict) search results,
      search name (body.map (fun p => translate_keys p kt [N.FLATTEN, N.FORMAT])) =
        .ok results →
      (∀ r ∈ results, r.hits.length ≤ r.total) →
      ∀ qrs fmts calls,
        process_entity_bulk name kt (.ok body) search = (.ok (.okBulk qrs fmts), calls) →
        ∀ qr ∈ qrs, qr.iterable = true ∧ qr.entities.length ≤ qr.total) := by
  refine ⟨fun e => ⟨rfl, rfl, rfl, rfl⟩, ?_, ?_⟩
  · intro parse search qr fmt h
    unfold process_place_single at h
    repeat' split at h
    all_goals first
      | (simp only [Except.ok.injEq, Response.okSingle.injEq] at h
         obtain ⟨h1, -⟩ := h
         subst h1
         exact ⟨rfl, rfl, rfl, rfl⟩)
      | simp at h
  · intro name kt body search results hsearch hbound qrs fmts calls h qr hqr
    simp only [process_entity_bulk, hsearch, Prod.mk.injEq, Except.ok.injEq,
      Response.okBulk.injEq] at h
    obtain ⟨⟨hqrs, -⟩, -⟩ := h
    subst hqrs
    simp only [List.mem_map] at hqr
    obtain ⟨r, ⟨r0, hr0, rfl⟩, rfl⟩ := hqr
    refine ⟨rfl, ?_⟩
    simpa [QueryResult.from_entity_list, tag_hits] using hbound r0 hr0

theorem C7_queryresult_invariants_witness :
    process_place_single (.ok [("lat", Val.int 1), ("lon", Val.int 2)])
        (fun _ qs => .ok (qs.map (fun _ => SearchResult.mk [] 0 0))) =
      .ok (.okSingle (QueryResult.from_single_entity
        [(N.STATE, Val.obj empty_entity), (N.DEPT, Val.obj empty_entity),
         (N.MUN, Val.obj empty_entity), (N.LAT, Val.int 1), (N.LON, Val.int 2),
         (N.SOURCE, Val.null)]) []) ∧
    ((QueryResult.from_single_entity
        [(N.STATE, Val.obj empty_entity), (N.DEPT, Val.obj empty_entity),
         (N.MUN, Val.obj empty_entity), (N.LAT, Val.int 1), (N.LON, Val.int 2),
         (N.SOURCE, Val.null)]).iterable = false ∧
      (QueryResult.from_single_entity
        [(N.STATE, Val.obj empty_entity), (N.DEPT, Val.obj empty_entity),
         (N.MUN, Val.obj empty_entity), (N.LAT, Val.int 1), (N.LON, Val.int 2),
         (N.SOURCE, Val.null)]).total = 1 ∧
      (QueryResult.from_single_entity
        [(N.STATE, Val.obj empty_entity), (N.DEPT, Val.obj empty_entity),
         (N.MUN, Val.obj empty_entity), (N.LAT, Val.int 1), (N.LON, Val.int 2),
         (N.SOURCE, Val.null)]).offset = 0 ∧
      (QueryResult.from_single_entity
        [(N.STATE, Val.obj empty_entity), (N.DEPT, Val.obj empty_entity),
         (N.MUN, Val.obj empty_entity), (N.LAT, Val.int 1), (N.LON, Val.int 2),
         (N.SOURCE, Val.null)]).entities.length = 1) :=
  ⟨rfl,
   C7_queryresult_invariants.2.1 (.ok [("lat", Val.int 1), ("lon", Val.int 2)])
     (fun _ qs => .ok (qs.map (fun _ => SearchResult.mk [] 0 0)))
     (QueryResult.from_single_entity
       [(N.STATE, Val.obj empty_entity), (N.DEPT, Val.obj empty_entity),
        (N.MUN, Val.obj empty_entity), (N.LAT, Val.int 1), (N.LON, Val.int 2),
        (N.SOURCE, Val.null)]) [] rfl⟩

/-- Python `str.split(',')`, structurally on the character list: split
at every comma, keeping empty segments. -/
def split_on_comma_chars : List Char → List (List Char)
  | [] => [[]]
  | c :: rest =>
    if c = ',' then [] :: split_on_comma_chars rest
    else
      match split_on_comma_chars rest with
      | [] => [[c]]
      | p :: ps => (c :: p) :: ps

/-- Python `str.split(',')` on a string. -/
def split_on_comma (s : String) : List String :=
  (split_on_comma_chars s.data).map String.mk

/-- Python string formatting `'{}'.format(number)` of the queried door
number. The address parser produces an integer; the other shapes are
rendered opaquely (they do not occur on this path). -/
def pyFormat : Val → String
  | .int n => toString n
  | .str s => s
  | .null => "None"
  | .list _ => "<list>"
  | .obj _ => "<dict>"

/-- The full-name augmentation in `build_addresses_result`:
`parts = full_name.split(','); parts[0] += ' {}'.format(number);
full_name = ','.join(parts)`. -/
def full_name_with_number (s : String) (number : Val) : String :=
  match split_on_comma s with
  | [] => ""
  | p :: ps => String.intercalate "," ((p ++ " " ++ pyFormat number) :: ps)

/-- Python `name in fields` on a list value: `==` against each element;
a string only ever equals an equal string. -/
def field_requested (fl : List Val) (s : String) : Bool :=
  fl.any (fun v => match v with | .str t => t == s | _ => false)

/-- Events on the relational connection pool: a checkout from the pool,
a release back to it, and an interpolation lookup
(`data.street_number_location`) issued on a connection. -/
inductive PgEvent where
  | getconn (conn : Nat)
  | putconn (conn : Nat)
  | lookup (conn : Nat)
deriving DecidableEq, Repr

def isGetconn : PgEvent → Bool
  | .getconn _ => true
  | _ => false

def isPutconn : PgEvent → Bool
  | .putconn _ => true
  | _ => false

/-- `get_postgres_db_connection(pool)` from `service/normalizer.py`: a
context manager that checks a connection out of the pool and returns it
in a `finally` block, so the release fires on every exit path,
including when the body raises. Connections are identified by a label
for the event trace. -/
def withPgConnection {α : Type} (conn : Nat)
    (body : Nat → Except Err α × List PgEvent) : Except Err α × List PgEvent :=
  ((body conn).1, .getconn conn :: ((body conn).2 ++ [.putconn conn]))

/-- Modelled from the spec: `data.street_number_location(connection,
geom, number, start, end)` lives outside the analyzed source; it may
raise a `DataConnectionException` and otherwise returns the location
value, so it is passed in as an oracle. -/
abbrev Snl := Nat → Val → Val → Val → Val → Except Err Val

/-- The full-name branch of the enrichment loop: when the full-name
field is requested, read it (a `KeyError` when absent, and `.split` on
a non-string raises, modelled as a type error) and append the door
number to its first comma-delimited segment. -/
def augment_full_name (fl : List Val) (number : Val) (street : Dict) : Except Err Dict :=
  if field_requested fl N.FULL_NAME then
    match Dict.index street N.FULL_NAME with
    | .error e => .error e
    | .ok (.str s) =>
      .ok (Dict.insert street N.FULL_NAME (.str (full_name_with_number s number)))
    | .ok _ => .error .typeError
  else .ok street

/-- The per-hit steps of `build_addresses_result` before the location
lookup: full-name augmentation, `pop` of the door-number range,
`street_extents`, `pop` of the geometry, and the literal door number
when that field was requested. Returns the updated hit, the popped
geometry and the chosen extents. -/
def address_hit_transform (fl : List Val) (number : Val) (street : Dict) :
    Except Err (Dict × Val × Val × Val) :=
  match augment_full_name fl number street with
  | .error e => .error e
  | .ok s1 =>
    match Dict.pop s1 N.DOOR_NUM with
    | .error e => .error e
    | .ok (door_nums, s2) =>
      match street_extents door_nums number with
      | .error e => .error e
      | .ok (start, stop) =>
        match Dict.pop s2 N.GEOM with
        | .error e => .error e
        | .ok (geom, s3) =>
          .ok (if field_requested fl N.DOOR_NUM then Dict.insert s3 N.DOOR_NUM number else s3,
            geom, start, stop)

/-- One iteration of the enrichment loop in `build_addresses_result`:
the hit transformation, then — when a location field is requested and
both extents are non-null — the `street_number_location` lookup on the
checked-out connection, then the source tag. A non-list `fields` value
raises at the first membership test of the loop body. The event list
records the lookups issued. -/
def enrich_street (fieldsV number : Val) (source : String) (snl : Snl) (conn : Nat)
    (street : Dict) : Except Err Dict × List PgEvent :=
  match fieldsV with
  | .list fl =>
    match address_hit_transform fl number street with
    | .error e => (.error e, [])
    | .ok (s4, geom, start, stop) =>
      if (field_requested fl N.LOCATION_LAT || field_requested fl N.LOCATION_LON) &&
          (!start.isNull && !stop.isNull) then
        match snl conn geom number start stop with
        | .error e => (.error e, [.lookup conn])
        | .ok loc =>
          (.ok (Dict.insert (Dict.insert s4 N.LOCATION loc) N.SOURCE (.str source)),
            [.lookup conn])
      else (.ok (Dict.insert s4 N.SOURCE (.str source)), [])
  | _ => (.error .typeError, [])

/-- The `for street in result.hits` loop of `build_addresses_result`:
enrich the hits in order; an exception stops the loop and propagates,
keeping the events already emitted. -/
def enrich_streets (fieldsV number : Val) (source : String) (snl : Snl) (conn : Nat) :
    List Dict → Except Err (List Dict) × List PgEvent
  | [] => (.ok [], [])
  | street :: rest =>
    match enrich_street fieldsV number source snl conn street with
    | (.error e, evs) => (.error e, evs)
    | (.ok s2, evs) =>
      match enrich_streets fieldsV number source snl conn rest with
      | (.ok rest2, evs2) => (.ok (s2 :: rest2), evs ++ evs2)
      | (.error e, evs2) => (.error e, evs ++ evs2)

/-- The body of the scoped-connection block of
`build_addresses_result`: enrich the hit list and reassemble the
result object. -/
def enrich_result (result : SearchResult) (fieldsV number : Val) (source : String)
    (snl : Snl) (conn : Nat) : Except Err SearchResult × List PgEvent :=
  match enrich_streets fieldsV number source snl conn result.hits with
  | (.ok hits2, evs) => (.ok { result with hits := hits2 }, evs)
  | (.error e, evs) => (.error e, evs)

/-- `build_addresses_result(result, query, source)` from
`service/normalizer.py`: read `query['fields']` and `query['number']`,
check one connection out of the pool, and enrich every hit of the
result under that single scoped checkout. -/
def build_addresses_result (result : SearchResult) (query : Dict) (source : String)
    (snl : Snl) (conn : Nat) : Except Err SearchResult × List PgEvent :=
  match Dict.index query "fields" with
  | .error e => (.error e, [])
  | .ok fieldsV =>
    match Dict.index query "number" with
    | .error e => (.error e, [])
    | .ok number =>
      withPgConnection conn (enrich_result result fieldsV number source snl)

/-- Modelled from the spec: `formatter.ADDRESSES_CSV_FIELDS` lives
outside the analyzed source; its value never influences the claims. -/
def ADDRESSES_CSV_FIELDS : Val := Val.list []

/-- `build_address_query_format(parsed_params)` from
`service/normalizer.py`: pop the `(road_name, number)` pair out of the
address parameter, translate the remaining keys ignoring the format
keys and the field list, then set `query['fields']` to the requested
fields plus the geometry and start-right/end-left boundary field
names; also build the format rules. -/
def build_address_query_format (parsed_params : Dict) : Except Err (Dict × Dict) :=
  match Dict.pop parsed_params N.ADDRESS with
  | .error e => .error e
  | .ok (.list [road_name, number], p1) =>
    let p2 := Dict.insert (Dict.insert p1 "road_name" road_name) "number" number
    let query := translate_keys p2
      [(N.DEPT, "department"), (N.STATE, "state"), (N.EXACT, "exact"),
       (N.ROAD_TYPE, "road_type"), (N.OFFSET, "offset"), (N.ORDER, "order")]
      [N.FLATTEN, N.FORMAT, N.FIELDS]
    match Dict.index p2 N.FIELDS with
    | .error e => .error e
    | .ok (.list fs) =>
      .ok (Dict.insert query "fields"
          (.list (fs ++ [Val.str N.GEOM, Val.str N.START_R, Val.str N.END_L])),
        Dict.insert (fmt_from p2 [N.FLATTEN, N.FIELDS, N.FORMAT])
          N.CSV_FIELDS ADDRESSES_CSV_FIELDS)
    | .ok _ => .error .typeError
  | .ok _ => .error .typeError

/-- `process_address_single(request)` from `service/normalizer.py`.
The pool hands out one connection per scoped checkout; its trace label
is 0. -/
def process_address_single (parse : Except (List String) Dict)
    (search : List Dict → Except Err (List SearchResult)) (snl : Snl) :
    Except Err Response × List PgEvent :=
  match parse with
  | .error errors => (.ok (.paramErrorSingle errors), [])
  | .ok qs_params =>
    match build_address_query_format qs_params with
    | .error e => (.error e, [])
    | .ok (query, fmt) =>
      match search [query] with
      | .error e => (.error e, [])
      | .ok [] => (.error .indexError, [])
      | .ok (result :: _) =>
        match build_addresses_result result query (get_index_source Index.streets) snl 0 with
        | (.error e, evs) => (.error e, evs)
        | (.ok result2, evs) =>
          (.ok (.okSingle
              (QueryResult.from_entity_list result2.hits result2.total result2.offset) fmt),
            evs)

/-- The `for result, query in zip(results, queries)` loop of
`process_address_bulk`: one `build_addresses_result` call — hence one
scoped connection checkout — per item; an exception stops the loop and
propagates, keeping the events already emitted. -/
def build_addresses_loop (source : String) (snl : Snl) (conn : Nat) :
    List (SearchResult × Dict) → Except Err (List SearchResult) × List PgEvent
  | [] => (.ok [], [])
  | (r, q) :: rest =>
    match build_addresses_result r q source snl conn with
    | (.error e, evs) => (.error e, evs)
    | (.ok r2, evs) =>
      match build_addresses_loop source snl conn rest with
      | (.ok rs, evs2) => (.ok (r2 :: rs), evs ++ evs2)
      | (.error e, evs2) => (.error e, evs ++ evs2)

/-- `process_address_bulk(request)` from `service/normalizer.py`:
build a query and format per item, issue one batch street search, then
run `build_addresses_result` once per `(result, query)` pair. -/
def process_address_bulk (parse : Except (List (List String)) (List Dict))
    (search : List Dict → Except Err (List SearchResult)) (snl : Snl) :
    Except Err Response × List PgEvent :=
  match parse with
  | .error errors => (.ok (.paramErrorBulk errors), [])
  | .ok body_params =>
    match body_params.mapM build_address_query_format with
    | .error e => (.error e, [])
    | .ok qfs =>
      match search (qfs.map Prod.fst) with
      | .error e => (.error e, [])
      | .ok results =>
        match build_addresses_loop (get_index_source Index.streets) snl 0
            (results.zip (qfs.map Prod.fst)) with
        | (.error e, evs) => (.error e, evs)
        | (.ok results2, evs) =>
          (.ok (.okBulk
              (results2.map (fun r => QueryResult.from_entity_list r.hits r.total r.offset))
              (qfs.map Prod.snd)), evs)

theorem enrich_street_events (fieldsV number : Val) (source : String) (snl : Snl) (conn : Nat)
    (street : Dict) :
    ∀ e ∈ (enrich_street fieldsV number source snl conn street).2, e = PgEvent.lookup conn := by
  intro e he
  unfold enrich_street at he
  repeat' split at he
  all_goals simp_all

theorem enrich_streets_events (fieldsV number : Val) (source : String) (snl : Snl) (conn : Nat)
    (hits : List Dict) :
    ∀ e ∈ (enrich_streets fieldsV number source snl conn hits).2, e = PgEvent.lookup conn := by
  induction hits with
  | nil => simp [enrich_streets]
  | cons street rest ih =>
    intro e he
    have h1 := enrich_street_events fieldsV number source snl conn street
    unfold enrich_streets at he
    rcases hs : enrich_street fieldsV number source snl conn street with ⟨r1, evs1⟩
    rw [hs] at he h1
    cases r1 with
    | error e1 => exact h1 e he
    | ok s2 =>
      have h2 := ih
      rcases hr : enrich_streets fieldsV number source snl conn rest with ⟨r2, evs2⟩
      rw [hr] at he h2
      cases r2 with
      | ok rest2 =>
        rcases List.mem_append.mp he with h | h
        · exact h1 e h
        · exact h2 e h
      | error e2 =>
        rcases List.mem_append.mp he with h | h
        · exact h1 e h
        · exact h2 e h

theorem enrich_result_events (result : SearchResult) (fieldsV number : Val) (source : String)
    (snl : Snl) (conn : Nat) :
    ∀ e ∈ (enrich_result result fieldsV number source snl conn).2, e = PgEvent.lookup conn := by
  intro e he
  have h1 := enrich_streets_events fieldsV number source snl conn result.hits
  unfold enrich_result at he
  rcases hs : enrich_streets fieldsV number source snl conn result.hits with ⟨r, evs⟩
  rw [hs] at he h1
  cases r with
  | ok hits2 => exact h1 e he
  | error e1 => exact h1 e he

theorem build_addresses_result_trace (result : SearchResult) (query : Dict) (source : String)
    (snl : Snl) (conn : Nat) :
    ((build_addresses_result result query source snl conn).2 = [] ∧
      ∃ e, (build_addresses_result result query source snl conn).1 = .error e) ∨
    ∃ L, (build_addresses_result result query source snl conn).2 =
        .getconn conn :: (L ++ [.putconn conn]) ∧
      ∀ e ∈ L, e = PgEvent.lookup conn := by
  unfold build_addresses_result
  split
  · exact .inl ⟨rfl, _, rfl⟩
  · split
    · exact .inl ⟨rfl, _, rfl⟩
    · exact .inr ⟨(enrich_result result _ _ source snl conn).2, rfl,
        enrich_result_events result _ _ source snl conn⟩

theorem build_addresses_result_ok_shape (result : SearchResult) (query : Dict)
    (source : String) (snl : Snl) (conn : Nat) (r2 : SearchResult) (evs : List PgEvent)
    (h : build_addresses_result result query source snl conn = (.ok r2, evs)) :
    ∃ L, evs = PgEvent.getconn conn :: (L ++ [PgEvent.putconn conn]) ∧
      ∀ e ∈ L, e = PgEvent.lookup conn := by
  rcases build_addresses_result_trace result query source snl conn with ⟨-, e, h1⟩ | ⟨L, h2, hL⟩
  · rw [h] at h1
    simp at h1
  · rw [h] at h2
    exact ⟨L, h2, hL⟩

theorem build_addresses_result_counts (result : SearchResult) (query : Dict) (source : String)
    (snl : Snl) (conn : Nat) :
    (build_addresses_result result query source snl conn).2.countP isGetconn =
      (build_addresses_result result query source snl conn).2.countP isPutconn := by
  rcases build_addresses_result_trace result query source snl conn with ⟨h2, -⟩ | ⟨L, h2, hL⟩
  · simp [h2]
  · have hg : L.countP isGetconn = 0 :=
      List.countP_eq_zero.mpr (fun e he => by simp [hL e he, isGetconn])
    have hp : L.countP isPutconn = 0 :=
      List.countP_eq_zero.mpr (fun e he => by simp [hL e he, isPutconn])
    simp [h2, List.countP_cons, List.countP_append, isGetconn, isPutconn, hg, hp]

theorem build_addresses_result_ok_counts (result : SearchResult) (query : Dict)
    (source : String) (snl : Snl) (conn : Nat) (r2 : SearchResult) (evs : List PgEvent)
    (h : build_addresses_result result query source snl conn = (.ok r2, evs)) :
    evs.countP isGetconn = 1 ∧ evs.countP isPutconn = 1 := by
  obtain ⟨L, h2, hL⟩ := build_addresses_result_ok_shape result query source snl conn r2 evs h
  have hg : L.countP isGetconn = 0 :=
    List.countP_eq_zero.mpr (fun e he => by simp [hL e he, isGetconn])
  have hp : L.countP isPutconn = 0 :=
    List.countP_eq_zero.mpr (fun e he => by simp [hL e he, isPutconn])
  subst h2
  simp [List.countP_cons, List.countP_append, isGetconn, isPutconn, hg, hp]

theorem build_addresses_loop_counts (source : String) (snl : Snl) (conn : Nat)
    (pairs : List (SearchResult × Dict)) (rs : List SearchResult) (evs : List PgEvent)
    (h : build_addresses_loop source snl conn pairs = (.ok rs, evs)) :
    evs.countP isGetconn = pairs.length ∧ evs.countP isPutconn = pairs.length := by
  induction pairs generalizing rs evs with
  | nil =>
    simp only [build_addresses_loop, Prod.mk.injEq, Except.ok.injEq] at h
    obtain ⟨-, rfl⟩ := h
    simp
  | cons pr rest ih =>
    unfold build_addresses_loop at h
    rcases h1 : build_addresses_result pr.1 pr.2 source snl conn with ⟨r1, evs1⟩
    rw [h1] at h
    cases r1 with
    | error e1 => simp at h
    | ok r2 =>
      rcases h2 : build_addresses_loop source snl conn rest with ⟨r3, evs2⟩
      rw [h2] at h
      cases r3 with
      | error e2 => simp at h
      | ok rest2 =>
        simp only [Prod.mk.injEq, Except.ok.injEq] at h
        obtain ⟨-, rfl⟩ := h
        obtain ⟨hg1, hp1⟩ := build_addresses_result_ok_counts pr.1 pr.2 source snl conn r2 evs1 h1
        obtain ⟨hg2, hp2⟩ := ih rest2 evs2 h2
        simp only [List.countP_append, hg1, hp1, hg2, hp2, List.length_cons]
        omega

theorem build_addresses_result_getconn_le (result : SearchResult) (query : Dict)
    (source : String) (snl : Snl) (conn : Nat) :
    (build_addresses_result result query source snl conn).2.countP isGetconn ≤ 1 := by
  rcases build_addresses_result_trace result query source snl conn with ⟨h2, -⟩ | ⟨L, h2, hL⟩
  · simp [h2]
  · have hg : L.countP isGetconn = 0 :=
      List.countP_eq_zero.mpr (fun e he => by simp [hL e he, isGetconn])
    simp [h2, List.countP_cons, List.countP_append, isGetconn, hg]

theorem process_address_single_counts (parse : Except (List String) Dict)
    (search : List Dict → Except Err (List SearchResult)) (snl : Snl) :
    (process_address_single parse search snl).2.countP isGetconn ≤ 1 ∧
    (process_address_single parse search snl).2.countP isGetconn =
      (process_address_single parse search snl).2.countP isPutconn := by
  unfold process_address_single
  split
  · simp
  next qs_params =>
    split
    · simp
    next query fmt heq0 =>
      split
      · simp
      · simp
      next result rest heq1 =>
        split
        next e evs heq2 =>
          constructor
          · have h := build_addresses_result_getconn_le result query
              (get_index_source Index.streets) snl 0
            rw [heq2] at h
            simpa using h
          · have h := build_addresses_result_counts result query
              (get_index_source Index.streets) snl 0
            rw [heq2] at h
            simpa using h
        next result2 evs heq2 =>
          constructor
          · have h := build_addresses_result_getconn_le result query
              (get_index_source Index.streets) snl 0
            rw [heq2] at h
            simpa using h
          · have h := build_addresses_result_counts result query
              (get_index_source Index.streets) snl 0
            rw [heq2] at h
            simpa using h

/-- C2 (amended): the scoped-connection discipline holds per address
query item, not per top-level bulk request. Every
`build_addresses_result` call checks out at most one connection: its
pool trace is either empty (the call failed before the checkout and
returned an error) or one checkout followed by that item's
interpolation lookups, all on the same connection, and the matching
unconditional release — also when the enrichment loop raises partway.
Checkout and release counts always balance; the single-address path
checks out at most one connection per request; and the bulk loop
performs exactly one checkout and one release per item when it
completes, so a bulk request with N items checks out N connections. -/
theorem C2_scoped_connection_per_item_amended :
    (∀ result query source snl conn,
      ((build_addresses_result result query source snl conn).2 = [] ∧
        ∃ e, (build_addresses_result result query source snl conn).1 = .error e) ∨
      ∃ L, (build_addresses_result result query source snl conn).2 =
          PgEvent.getconn conn :: (L ++ [PgEvent.putconn conn]) ∧
        ∀ e ∈ L, e = PgEvent.lookup conn) ∧
    (∀ result query source snl conn,
      (build_addresses_result result query source snl conn).2.countP isGetconn =
        (build_addresses_result result query source snl conn).2.countP isPutconn) ∧
    (∀ parse search snl,
      (process_address_single parse search snl).2.countP isGetconn ≤ 1 ∧
      (process_address_single parse search snl).2.countP isGetconn =
        (process_address_single parse search snl).2.countP isPutconn) ∧
    (∀ source snl conn pairs rs evs,
      build_addresses_loop source snl conn pairs = (.ok rs, evs) →
      evs.countP isGetconn = pairs.length ∧ evs.countP isPutconn = pairs.length) :=
  ⟨build_addresses_result_trace, build_addresses_result_counts,
   process_address_single_counts, build_addresses_loop_counts⟩

theorem C2_scoped_connection_per_item_amended_witness :
    build_addresses_loop (get_index_source Index.streets) (fun _ _ _ _ _ => .ok Val.null) 0
      [(SearchResult.mk [] 0 0, [("fields", Val.list []), ("number", Val.int 5)]),
       (SearchResult.mk [] 0 0, [("fields", Val.list []), ("number", Val.int 5)])] =
      (.ok [SearchResult.mk [] 0 0, SearchResult.mk [] 0 0],
       [PgEvent.getconn 0, PgEvent.putconn 0, PgEvent.getconn 0, PgEvent.putconn 0]) ∧
    [PgEvent.getconn 0, PgEvent.putconn 0, PgEvent.getconn 0,
      PgEvent.putconn 0].countP isGetconn = 2 ∧
    [PgEvent.getconn 0, PgEvent.putconn 0, PgEvent.getconn 0,
      PgEvent.putconn 0].countP isPutconn = 2 :=
  ⟨rfl,
   C2_scoped_connection_per_item_amended.2.2.2 (get_index_source Index.streets)
     (fun _ _ _ _ _ => .ok Val.null) 0
     [(SearchResult.mk [] 0 0, [("fields", Val.list []), ("number", Val.int 5)]),
      (SearchResult.mk [] 0 0, [("fields", Val.list []), ("number", Val.int 5)])]
     [SearchResult.mk [] 0 0, SearchResult.mk [] 0 0]
     [PgEvent.getconn 0, PgEvent.putconn 0, PgEvent.getconn 0, PgEvent.putconn 0] rfl⟩

/-- C2 counterexample: a bulk address request whose body parses into
two items checks out two relational-store connections — one per item,
each released before the next is taken — refuting the claim that
exactly one connection is checked out per top-level request. -/
theorem C2_one_connection_per_request_counterexample :
    (process_address_bulk
      (.ok [[(N.ADDRESS, Val.list [Val.str "Callao", Val.int 123]), (N.FIELDS, Val.list [])],
            [(N.ADDRESS, Val.list [Val.str "Santa Fe", Val.int 500]),
             (N.FIELDS, Val.list [])]])
      (fun qs => .ok (qs.map (fun _ => SearchResult.mk [] 0 0)))
      (fun _ _ _ _ _ => .ok Val.null)).2 =
      [PgEvent.getconn 0, PgEvent.putconn 0, PgEvent.getconn 0, PgEvent.putconn 0] ∧
    (process_address_bulk
      (.ok [[(N.ADDRESS, Val.list [Val.str "Callao", Val.int 123]), (N.FIELDS, Val.list [])],
            [(N.ADDRESS, Val.list [Val.str "Santa Fe", Val.int 500]),
             (N.FIELDS, Val.list [])]])
      (fun qs => .ok (qs.map (fun _ => SearchResult.mk [] 0 0)))
      (fun _ _ _ _ _ => .ok Val.null)).2.countP isGetconn = 2 ∧
    (2 : Nat) ≠ 1 := by
  refine ⟨rfl, rfl, by decide⟩

theorem Dict.index_ok (d : Dict) (k : String) (v : Val) (h : Dict.index d k = .ok v) :
    Dict.get? d k = some v := by
  unfold Dict.index at h
  split at h <;> simp_all

theorem Dict.pop_ok (d : Dict) (k : String) (v : Val) (d2 : Dict)
    (h : Dict.pop d k = .ok (v, d2)) :
    Dict.get? d k = some v ∧ d2 = Dict.erase d k := by
  unfold Dict.pop at h
  split at h <;> simp_all

theorem augment_full_name_props (fl : List Val) (number : Val) (street s1 : Dict)
    (h : augment_full_name fl number street = .ok s1) :
    (∀ k, k ≠ N.FULL_NAME → Dict.get? s1 k = Dict.get? street k) ∧
    (field_requested fl N.FULL_NAME = true →
      ∀ s, Dict.get? street N.FULL_NAME = some (.str s) →
        Dict.get? s1 N.FULL_NAME = some (.str (full_name_with_number s number))) := by
  unfold augment_full_name at h
  split at h
  next hreq =>
    split at h
    · simp at h
    next s heq =>
      simp only [Except.ok.injEq] at h
      subst h
      have hst := Dict.index_ok street N.FULL_NAME (.str s) heq
      refine ⟨fun k hk => Dict.get?_insert_ne street N.FULL_NAME k _ (Ne.symm hk), ?_⟩
      intro _ s0 hs0
      rw [hst] at hs0
      simp only [Option.some.injEq, Val.str.injEq] at hs0
      subst hs0
      exact Dict.get?_insert_self street N.FULL_NAME _
    · simp at h
  next hreq =>
    simp only [Except.ok.injEq] at h
    subst h
    refine ⟨fun k _ => rfl, fun htrue => absurd htrue hreq⟩

theorem address_hit_transform_props (fl : List Val) (number : Val) (street s4 : Dict)
    (g a b : Val) (h : address_hit_transform fl number street = .ok (s4, g, a, b)) :
    Dict.get? s4 N.GEOM = none ∧
    Dict.get? s4 N.DOOR_NUM =
      (if field_requested fl N.DOOR_NUM then some number else none) ∧
    (field_requested fl N.FULL_NAME = true →
      ∀ s, Dict.get? street N.FULL_NAME = some (.str s) →
        Dict.get? s4 N.FULL_NAME = some (.str (full_name_with_number s number))) := by
  unfold address_hit_transform at h
  split at h
  · simp at h
  next s1 heq1 =>
    split at h
    · simp at h
    next door_nums s2 heq2 =>
      split at h
      · simp at h
      next start stop heq3 =>
        split at h
        · simp at h
        next geom s3 heq4 =>
          simp only [Except.ok.injEq, Prod.mk.injEq] at h
          obtain ⟨hs4, -, -, -⟩ := h
          obtain ⟨-, hrest2⟩ := Dict.pop_ok s1 N.DOOR_NUM door_nums s2 heq2
          obtain ⟨-, hrest4⟩ := Dict.pop_ok s2 N.GEOM geom s3 heq4
          obtain ⟨haug, hfn⟩ := augment_full_name_props fl number street s1 heq1
          subst hrest4 hrest2 hs4
          have hDG : N.DOOR_NUM ≠ N.GEOM := by decide
          have hGD : N.GEOM ≠ N.DOOR_NUM := by decide
          have hDF : N.DOOR_NUM ≠ N.FULL_NAME := by decide
          have hGF : N.GEOM ≠ N.FULL_NAME := by decide
          have hFD : N.FULL_NAME ≠ N.DOOR_NUM := by decide
          have hFG : N.FULL_NAME ≠ N.GEOM := by decide
          refine ⟨?_, ?_, ?_⟩
          · by_cases hreq : field_requested fl N.DOOR_NUM
            · rw [if_pos hreq, Dict.get?_insert_ne _ _ _ _ hDG, Dict.get?_erase_self]
            · rw [if_neg hreq, Dict.get?_erase_self]
          · by_cases hreq : field_requested fl N.DOOR_NUM
            · rw [if_pos hreq, if_pos hreq, Dict.get?_insert_self]
            · rw [if_neg hreq, if_neg hreq, Dict.get?_erase_ne _ _ _ hGD,
                Dict.get?_erase_self]
          · intro htrue s hs
            have hval := hfn htrue s hs
            by_cases hreq : field_requested fl N.DOOR_NUM
            · rw [if_pos hreq, Dict.get?_insert_ne _ _ _ _ hDF,
                Dict.get?_erase_ne _ _ _ hGF, Dict.get?_erase_ne _ _ _ hDF]
              exact hval
            · rw [if_neg hreq, Dict.get?_erase_ne _ _ _ hGF, Dict.get?_erase_ne _ _ _ hDF]
              exact hval

theorem enrich_street_ok_props (fl : List Val) (number : Val) (source : String) (snl : Snl)
    (conn : Nat) (street s2 : Dict) (evs : List PgEvent)
    (h : enrich_street (.list fl) number source snl conn street = (.ok s2, evs)) :
    Dict.get? s2 N.GEOM = none ∧
    Dict.get? s2 N.DOOR_NUM =
      (if field_requested fl N.DOOR_NUM then some number else none) ∧
    (field_requested fl N.FULL_NAME = true →
      ∀ s, Dict.get? street N.FULL_NAME = some (.str s) →
        Dict.get? s2 N.FULL_NAME = some (.str (full_name_with_number s number))) ∧
    Dict.get? s2 N.SOURCE = some (.str source) := by
  have hSG : N.SOURCE ≠ N.GEOM := by decide
  have hSD : N.SOURCE ≠ N.DOOR_NUM := by decide
  have hSF : N.SOURCE ≠ N.FULL_NAME := by decide
  have hLG : N.LOCATION ≠ N.GEOM := by decide
  have hLD : N.LOCATION ≠ N.DOOR_NUM := by decide
  have hLF : N.LOCATION ≠ N.FULL_NAME := by decide
  simp only [enrich_street] at h
  split at h
  · simp at h
  next s4 geom start stop heq =>
    obtain ⟨hG, hD, hF⟩ := address_hit_transform_props fl number street s4 geom start stop heq
    split at h
    · split at h
      · simp at h
      next loc heq2 =>
        simp only [Prod.mk.injEq, Except.ok.injEq] at h
        obtain ⟨hs2, -⟩ := h
        subst hs2
        refine ⟨?_, ?_, ?_, Dict.get?_insert_self _ _ _⟩
        · rw [Dict.get?_insert_ne _ _ _ _ hSG, Dict.get?_insert_ne _ _ _ _ hLG]
          exact hG
        · rw [Dict.get?_insert_ne _ _ _ _ hSD, Dict.get?_insert_ne _ _ _ _ hLD]
          exact hD
        · intro htrue s hs
          rw [Dict.get?_insert_ne _ _ _ _ hSF, Dict.get?_insert_ne _ _ _ _ hLF]
          exact hF htrue s hs
    · simp only [Prod.mk.injEq, Except.ok.injEq] at h
      obtain ⟨hs2, -⟩ := h
      subst hs2
      refine ⟨?_, ?_, ?_, Dict.get?_insert_self _ _ _⟩
      · rw [Dict.get?_insert_ne _ _ _ _ hSG]
        exact hG
      · rw [Dict.get?_insert_ne _ _ _ _ hSD]
        exact hD
      · intro htrue s hs
        rw [Dict.get?_insert_ne _ _ _ _ hSF]
        exact hF htrue s hs

theorem enrich_streets_ok_pointwise (fieldsV number : Val) (source : String) (snl : Snl)
    (conn : Nat) (hits : List Dict) (hits2 : List Dict) (evs : List PgEvent)
    (h : enrich_streets fieldsV number source snl conn hits = (.ok hits2, evs)) :
    hits2.length = hits.length ∧
    ∀ (i : Nat) (street : Dict), hits[i]? = some street →
      ∃ street2 evs1, hits2[i]? = some street2 ∧
        enrich_street fieldsV number source snl conn street = (.ok street2, evs1) := by
  induction hits generalizing hits2 evs with
  | nil =>
    simp only [enrich_streets, Prod.mk.injEq, Except.ok.injEq] at h
    obtain ⟨rfl, -⟩ := h
    simp
  | cons street rest ih =>
    unfold enrich_streets at h
    rcases h1 : enrich_street fieldsV number source snl conn street with ⟨r1, evs1⟩
    rw [h1] at h
    cases r1 with
    | error e => simp at h
    | ok s2 =>
      rcases h2 : enrich_streets fieldsV number source snl conn rest with ⟨r2, evs2⟩
      rw [h2] at h
      cases r2 with
      | error e => simp at h
      | ok rest2 =>
        simp only [Prod.mk.injEq, Except.ok.injEq] at h
        obtain ⟨rfl, -⟩ := h
        obtain ⟨hlen, hpt⟩ := ih rest2 evs2 h2
        refine ⟨by simp [hlen], ?_⟩
        intro i st hst
        cases i with
        | zero =>
          simp only [List.getElem?_cons_zero, Option.some.injEq] at hst
          subst hst
          exact ⟨s2, evs1, by simp, h1⟩
        | succ n =>
          simp only [List.getElem?_cons_succ] at hst ⊢
          exact hpt n st hst

theorem build_addresses_result_ok_inversion (result : SearchResult) (query : Dict)
    (source : String) (snl : Snl) (conn : Nat) (fieldsV number : Val)
    (result2 : SearchResult) (evs : List PgEvent)
    (hfields : Dict.get? query "fields" = some fieldsV)
    (hnumber : Dict.get? query "number" = some number)
    (h : build_addresses_result result query source snl conn = (.ok result2, evs)) :
    ∃ evs0,
      enrich_streets fieldsV number source snl conn result.hits = (.ok result2.hits, evs0) ∧
      result2.total = result.total ∧ result2.offset = result.offset := by
  have hif : Dict.index query "fields" = .ok fieldsV := by simp [Dict.index, hfields]
  have hin : Dict.index query "number" = .ok number := by simp [Dict.index, hnumber]
  simp only [build_addresses_result, hif, hin, withPgConnection, Prod.mk.injEq] at h
  obtain ⟨h1, -⟩ := h
  unfold enrich_result at h1
  rcases hs : enrich_streets fieldsV number source snl conn result.hits with ⟨r, evs0⟩
  rw [hs] at h1
  cases r with
  | error e => simp at h1
  | ok hits2 =>
    simp only [Except.ok.injEq] at h1
    subst h1
    exact ⟨evs0, rfl, rfl, rfl⟩

/-- C8: for every address hit whose requested fields include the
full-name field, the queried door number is appended (space-separated)
to the first comma-delimited segment of the full name and every
trailing comma-delimited segment is left unchanged; in particular
`"Callao"` with number 123 becomes `"Callao 123"` and `"Callao,CABA"`
becomes `"Callao 123,CABA"`. -/
theorem C8_full_name_augmentation :
    (∀ result query source snl conn fl number result2 evs (i : Nat) street s,
      Dict.get? query "fields" = some (.list fl) →
      Dict.get? query "number" = some number →
      build_addresses_result result query source snl conn = (.ok result2, evs) →
      field_requested fl N.FULL_NAME = true →
      result.hits[i]? = some street →
      Dict.get? street N.FULL_NAME = some (.str s) →
      ∃ street2, result2.hits[i]? = some street2 ∧
        Dict.get? street2 N.FULL_NAME = some (.str (full_name_with_number s number))) ∧
    full_name_with_number "Callao" (Val.int 123) = "Callao 123" ∧
    full_name_with_number "Callao,CABA" (Val.int 123) = "Callao 123,CABA" := by
  refine ⟨?_, rfl, rfl⟩
  intro result query source snl conn fl number result2 evs i street s hf hn hb hreq hst hfn
  obtain ⟨evs0, hs, -, -⟩ := build_addresses_result_ok_inversion result query source snl conn
    (.list fl) number result2 evs hf hn hb
  obtain ⟨-, hpt⟩ := enrich_streets_ok_pointwise (.list fl) number source snl conn
    result.hits result2.hits evs0 hs
  obtain ⟨street2, evs1, hst2, hok⟩ := hpt i street hst
  obtain ⟨-, -, hfull, -⟩ := enrich_street_ok_props fl number source snl conn street street2
    evs1 hok
  exact ⟨street2, hst2, hfull hreq s hfn⟩

theorem C8_full_name_augmentation_witness :
    ∃ street2,
      (SearchResult.mk [[(N.FULL_NAME, Val.str "Callao 123,CABA"), (N.DOOR_NUM, Val.int 123),
        (N.SOURCE, Val.str "INDEC")]] 1 0).hits[(0 : Nat)]? = some street2 ∧
      Dict.get? street2 N.FULL_NAME =
        some (.str (full_name_with_number "Callao,CABA" (Val.int 123))) :=
  C8_full_name_augmentation.1
    (SearchResult.mk [[(N.FULL_NAME, Val.str "Callao,CABA"),
      (N.DOOR_NUM, mkDoorNums (Val.int 101) (Val.int 100) (Val.int 201) (Val.int 200)),
      (N.GEOM, Val.str "G")]] 1 0)
    [("fields", Val.list [Val.str N.FULL_NAME, Val.str N.DOOR_NUM]), ("number", Val.int 123)]
    "INDEC" (fun _ _ _ _ _ => .ok Val.null) 0
    [Val.str N.FULL_NAME, Val.str N.DOOR_NUM] (Val.int 123)
    (SearchResult.mk [[(N.FULL_NAME, Val.str "Callao 123,CABA"), (N.DOOR_NUM, Val.int 123),
      (N.SOURCE, Val.str "INDEC")]] 1 0)
    [PgEvent.getconn 0, PgEvent.putconn 0] 0
    [(N.FULL_NAME, Val.str "Callao,CABA"),
      (N.DOOR_NUM, mkDoorNums (Val.int 101) (Val.int 100) (Val.int 201) (Val.int 200)),
      (N.GEOM, Val.str "G")] "Callao,CABA"
    rfl rfl rfl rfl rfl rfl

/-- C9: for every address query the geometry field and the
start-right/end-left boundary field names are silently appended to the
backend query's requested field list, whatever the client asked for;
and on every returned address hit the geometry entry and the raw
door-number-range payload are unconditionally removed, the door-number
key reappearing only as the literal queried number when that field was
requested — so no returned address entity carries the geometry key or
the raw range. -/
theorem C9_geom_and_range_frame_effect :
    (∀ p rn nm fs q fmt,
      Dict.get? p N.ADDRESS = some (.list [rn, nm]) →
      Dict.get? p N.FIELDS = some (.list fs) →
      build_address_query_format p = .ok (q, fmt) →
      Dict.get? q "fields" =
        some (.list (fs ++ [Val.str N.GEOM, Val.str N.START_R, Val.str N.END_L]))) ∧
    (∀ result query source snl conn fl number result2 evs,
      Dict.get? query "fields" = some (.list fl) →
      Dict.get? query "number" = some number →
      build_addresses_result result query source snl conn = (.ok result2, evs) →
      ∀ street2 ∈ result2.hits,
        Dict.get? street2 N.GEOM = none ∧
        Dict.get? street2 N.DOOR_NUM =
          (if field_requested fl N.DOOR_NUM then some number else none)) := by
  constructor
  · intro p rn nm fs q fmt haddr hfields hb
    have hpop : Dict.pop p N.ADDRESS = .ok (.list [rn, nm], Dict.erase p N.ADDRESS) := by
      simp [Dict.pop, haddr]
    have h1 : Dict.get? (Dict.erase p N.ADDRESS) N.FIELDS = some (.list fs) := by
      rw [Dict.get?_erase_ne _ _ _ (by decide)]
      exact hfields
    have h2 : Dict.get? (Dict.insert (Dict.insert (Dict.erase p N.ADDRESS) "road_name" rn)
        "number" nm) N.FIELDS = some (.list fs) := by
      rw [Dict.get?_insert_ne _ _ _ _ (by decide), Dict.get?_insert_ne _ _ _ _ (by decide)]
      exact h1
    have hidx : Dict.index (Dict.insert (Dict.insert (Dict.erase p N.ADDRESS) "road_name" rn)
        "number" nm) N.FIELDS = .ok (.list fs) := by
      simp [Dict.index, h2]
    simp only [build_address_query_format, hpop, hidx, Except.ok.injEq, Prod.mk.injEq] at hb
    obtain ⟨hq, -⟩ := hb
    subst hq
    exact Dict.get?_insert_self _ _ _
  · intro result query source snl conn fl number result2 evs hf hn hb street2 hmem
    obtain ⟨evs0, hs, -, -⟩ := build_addresses_result_ok_inversion result query source snl conn
      (.list fl) number result2 evs hf hn hb
    obtain ⟨hlen, hpt⟩ := enrich_streets_ok_pointwise (.list fl) number source snl conn
      result.hits result2.hits evs0 hs
    obtain ⟨i, hst2⟩ := List.mem_iff_getElem?.mp hmem
    have hi2 : i < result2.hits.length := by
      by_contra hge
      rw [List.getElem?_eq_none (by omega)] at hst2
      simp at hst2
    have hi3 : i < result.hits.length := by omega
    obtain ⟨street2b, evs1, hst2b, hok⟩ := hpt i result.hits[i]
      (List.getElem?_eq_getElem hi3)
    rw [hst2] at hst2b
    simp only [Option.some.injEq] at hst2b
    subst hst2b
    obtain ⟨hG, hD, -, -⟩ := enrich_street_ok_props fl number source snl conn
      result.hits[i] street2 evs1 hok
    exact ⟨hG, hD⟩

theorem C9_geom_and_range_frame_effect_witness :
    Dict.get? [(N.FIELDS, Val.list [Val.str N.FULL_NAME]),
        (N.ADDRESS, Val.list [Val.str "Callao", Val.int 123])] N.ADDRESS =
      some (.list [Val.str "Callao", Val.int 123]) ∧
    Dict.get? [(N.FIELDS, Val.list [Val.str N.FULL_NAME]),
        (N.ADDRESS, Val.list [Val.str "Callao", Val.int 123])] N.FIELDS =
      some (.list [Val.str N.FULL_NAME]) ∧
    (∃ q fmt,
      build_address_query_format
        [(N.FIELDS, Val.list [Val.str N.FULL_NAME]),
         (N.ADDRESS, Val.list [Val.str "Callao", Val.int 123])] = .ok (q, fmt) ∧
      Dict.get? q "fields" =
        some (.list ([Val.str N.FULL_NAME] ++
          [Val.str N.GEOM, Val.str N.START_R, Val.str N.END_L]))) := by
  exact ⟨rfl, rfl, _, _, rfl,
    C9_geom_and_range_frame_effect.1
      [(N.FIELDS, Val.list [Val.str N.FULL_NAME]),
       (N.ADDRESS, Val.list [Val.str "Callao", Val.int 123])]
      (Val.str "Callao") (Val.int 123) [Val.str N.FULL_NAME] _ _ rfl rfl rfl⟩
